import Mathlib

/-!
Shallow embedding of the "Hunt the Wumpus" watch-face game core
(`src/watch-faces/complication/wumpus_face.c`).

The C code keeps the whole game in a single mutable `wumpus_game_state_t`;
here the state is an explicit record threaded through pure functions.  The
host RNG (`arc4random_uniform(n)`, uniform on `[0,n)`) is modelled as an
abstract stream `g : Nat → Nat` together with a cursor `rpos` stored in the
state: each draw reads `g rpos % n` and advances the cursor.  Rejection
sampling loops (`_generate_unique`, `_find_safe_random_room`) receive
explicit fuel and return `Option`.  Display calls are modelled only through
their effects on game state (`_display_hazards` advances the warning cursor
and may start the bat melody; `_display_death` starts the lose melody and is
additionally instrumented with a `death_display` field recording the death
cause it shows).
-/

namespace WumpusFace

/-- The C enum `wumpus_hazard_type_t`: hazards placeable in a room, plus the arrow tag
used only as a death cause. -/
inductive WHazard where
  | none
  | wumpus
  | bat
  | pitfall
  | arrow
deriving DecidableEq, Repr, Inhabited

/-- The C enum `wumpus_current_action_t`: the player-facing action state machine tag. -/
inductive WAction where
  | shoot
  | shoot_n
  | shoot_rooms
  | go
  | choosing_room
  | bat_transport
  | died
  | won
deriving DecidableEq, Repr, Inhabited

/-- The C enum `wumpus_melody_t`. -/
inductive WMelody where
  | mnone
  | startup
  | win
  | lose
  | bats
deriving DecidableEq, Repr, Inhabited

/-- Number of non-silent notes in each melody (the C arrays end with
`BUZZER_NOTE_SILENT`, which the tick handler detects to finish playback). -/
def melodyLen : WMelody → Nat
  | WMelody.mnone => 0
  | WMelody.startup => 7
  | WMelody.win => 7
  | WMelody.lose => 7
  | WMelody.bats => 4

/-- The C struct `wumpus_game_state_t`, with the RNG cursor `rpos` and the instrumentation
field `death_display` added.  `arrows` is `Int` because the C field is a
signed `int8_t` that goes to `-1` on arrow exhaustion; `led_cnt` is a `uint8_t`
whose decrement wraps modulo 256. -/
structure WState where
  player_room : Nat
  hazards : List WHazard
  arrows : Int
  current_action : WAction
  selected_room_n : Int
  digits_tick_show : Bool
  action_tick_show : Bool
  hazard_point : Nat
  shots_path_len : Nat
  shots_picked : Nat
  shots_room : Nat
  shots_path : List Nat
  transport_timer : Nat
  transport_dest_room : Nat
  current_melody : WMelody
  melody_step : Nat
  led_cnt : Nat
  active_wumpus_mode : Bool
  sound_mode_on : Bool
  rpos : Nat
  death_display : Option WHazard
deriving DecidableEq, Repr, Inhabited

/-- The fixed dodecahedron adjacency table `cave_map`. -/
def caveMap : List (List Nat) :=
  [[1, 4, 7], [0, 2, 9], [1, 3, 11], [2, 4, 13], [0, 3, 5],
   [4, 6, 14], [5, 7, 16], [0, 6, 8], [7, 9, 17], [1, 8, 10],
   [9, 11, 18], [2, 10, 12], [11, 13, 19], [3, 12, 14], [5, 13, 15],
   [14, 16, 19], [6, 15, 17], [8, 16, 18], [10, 17, 19], [12, 15, 18]]

/-- The row `cave_map[room]`. -/
def neighborsOf (room : Nat) : List Nat := caveMap.getD room []

/-- The entry `cave_map[room][k]`. -/
def nthNeighbor (room k : Nat) : Nat := (neighborsOf room).getD k 0

/-- The inner `j` loop of `_shot`: is `b` one of `cave_map[a][j]`? -/
def adjacentRooms (a b : Nat) : Bool := (neighborsOf a).contains b

/-- The abstract RNG port: a stream of host-provided values. -/
abbrev Rng := Nat → Nat

/-- Embeds `_get_rand_num(n)` reading the stream at `pos`: a value in `[0,n)`. -/
def getRand (g : Rng) (n pos : Nat) : Nat := g pos % n

/-- Embeds `_find_safe_random_room`: draw rooms until one holds neither the wumpus
nor a pit.  Returns the room and the advanced RNG cursor. -/
def findSafeRandomRoom (g : Rng) (hz : List WHazard) : Nat → Nat → Option (Nat × Nat)
  | 0, _ => Option.none
  | fuel + 1, pos =>
    let r := getRand g 20 pos
    let h := hz.getD r WHazard.none
    if h = WHazard.wumpus ∨ h = WHazard.pitfall then
      findSafeRandomRoom g hz fuel (pos + 1)
    else
      some (r, pos + 1)

/-- Embeds `_wumpus_flee`: move the wumpus (first room holding it, scanning rooms in
order) to a random neighbor.  Returns whether a wumpus was found. -/
def wumpusFlee (g : Rng) (s : WState) : Bool × WState :=
  match (List.range 20).find? (fun i => s.hazards.getD i WHazard.none = WHazard.wumpus) with
  | some i =>
    let target := nthNeighbor i (getRand g 3 s.rpos)
    (true, { s with hazards := (s.hazards.set i WHazard.none).set target WHazard.wumpus,
                    rpos := s.rpos + 1 })
  | Option.none => (false, s)

/-- The guard of `_wumpus_move`: the draw fires iff `rand(100) > WUMPUS_MOVE_PROB`
with `WUMPUS_MOVE_PROB = 75`. -/
def wumpusMoveFires (r : Nat) : Bool := 75 < r

/-- Embeds `_wumpus_move`: in active mode, roll the guard and re-use `_wumpus_flee`. -/
def wumpusMove (g : Rng) (s : WState) : Bool × WState :=
  let r := getRand g 100 s.rpos
  let s1 : WState := { s with rpos := s.rpos + 1 }
  if wumpusMoveFires r then wumpusFlee g s1 else (false, s1)

/-- Embeds `_play_melody`: start a melody unless quiet mode is on or another melody
is playing. -/
def playMelody (m : WMelody) (s : WState) : WState :=
  if s.sound_mode_on = false then s
  else if s.current_melody ≠ WMelody.mnone then s
  else { s with current_melody := m, melody_step := 0 }

/-- Embeds `_display_death`: shows the cause and starts the lose melody.  The shown
cause is recorded in `death_display`. -/
def displayDeath (h : WHazard) (s : WState) : WState :=
  playMelody WMelody.lose { s with death_display := some h }

/-- Embeds `_display_won`: starts the win melody. -/
def displayWon (s : WState) : WState := playMelody WMelody.win s

/-- Embeds `_go_to_selected_room`: if a neighbor slot is selected, move there and
report the hazard in the new room; otherwise report no hazard. -/
def goToSelectedRoom (s : WState) : WHazard × WState :=
  if 0 ≤ s.selected_room_n then
    let newRoom := nthNeighbor s.player_room s.selected_room_n.toNat
    (s.hazards.getD newRoom WHazard.none, { s with player_room := newRoom })
  else
    (WHazard.none, s)

/-- The list of hazards in the rooms adjacent to the player, in neighbor
order, skipping empty rooms (built by `_display_hazards`). -/
def adjacentHazardList (s : WState) : List WHazard :=
  ((neighborsOf s.player_room).map (fun r => s.hazards.getD r WHazard.none)).filter
    (fun h => h ≠ WHazard.none)

/-- State effects of `_display_hazards`: advance the cyclic warning cursor
and possibly start the bat melody. -/
def displayHazards (s : WState) : WState :=
  let hzs := adjacentHazardList s
  if hzs.length = 0 then s
  else
    let cur := hzs.getD s.hazard_point WHazard.none
    let s1 := if cur = WHazard.bat then playMelody WMelody.bats s else s
    let hp := s1.hazard_point + 1
    if hzs.length ≤ hp then { s1 with hazard_point := 0 }
    else { s1 with hazard_point := hp }

/-- Embeds `_generate_unique`: draw rooms until one differs from the player room
and holds no hazard yet. -/
def generateUnique (g : Rng) (hz : List WHazard) (pr : Nat) : Nat → Nat → Option (Nat × Nat)
  | 0, _ => Option.none
  | fuel + 1, pos =>
    let v := getRand g 20 pos
    if v ≠ pr ∧ hz.getD v WHazard.none = WHazard.none then some (v, pos + 1)
    else generateUnique g hz pr fuel (pos + 1)

/-- Embeds `_generate_hazards`: clear the field, then place `WUMPUS_NUM_PITS = 2`
pits, `WUMPUS_NUM_BATS = 2` bats, and one wumpus, each via `_generate_unique`. -/
def generateHazards (g : Rng) (pr : Nat) (fuel pos : Nat) : Option (List WHazard × Nat) :=
  let hz0 := List.replicate 20 WHazard.none
  match generateUnique g hz0 pr fuel pos with
  | Option.none => Option.none
  | some (r1, p1) =>
  let hz1 := hz0.set r1 WHazard.pitfall
  match generateUnique g hz1 pr fuel p1 with
  | Option.none => Option.none
  | some (r2, p2) =>
  let hz2 := hz1.set r2 WHazard.pitfall
  match generateUnique g hz2 pr fuel p2 with
  | Option.none => Option.none
  | some (r3, p3) =>
  let hz3 := hz2.set r3 WHazard.bat
  match generateUnique g hz3 pr fuel p3 with
  | Option.none => Option.none
  | some (r4, p4) =>
  let hz4 := hz3.set r4 WHazard.bat
  match generateUnique g hz4 pr fuel p4 with
  | Option.none => Option.none
  | some (r5, p5) => some (hz4.set r5 WHazard.wumpus, p5)

/-- Embeds `_init_game`: reset every per-game field (including the two settings
flags) and regenerate hazards.  The shot-path buffer is not cleared by the C
code and is carried over. -/
def initGame (g : Rng) (fuel : Nat) (s : WState) : Option WState :=
  let pr := getRand g 20 s.rpos
  match generateHazards g pr fuel (s.rpos + 1) with
  | Option.none => Option.none
  | some (hz, p2) => some { s with
      current_action := WAction.shoot
      player_room := pr
      selected_room_n := -1
      digits_tick_show := true
      action_tick_show := true
      hazard_point := 0
      shots_path_len := 0
      shots_picked := 0
      shots_room := 0
      arrows := 5
      led_cnt := 0
      transport_timer := 0
      transport_dest_room := 0
      current_melody := WMelody.mnone
      melody_step := 0
      active_wumpus_mode := false
      sound_mode_on := true
      hazards := hz
      rpos := p2 }

/-- The zero-initialised static `_state` present at boot. -/
def initialState : WState :=
  { player_room := 0
    hazards := List.replicate 20 WHazard.none
    arrows := 0
    current_action := WAction.shoot
    selected_room_n := 0
    digits_tick_show := false
    action_tick_show := false
    hazard_point := 0
    shots_path_len := 0
    shots_picked := 0
    shots_room := 0
    shots_path := List.replicate 5 0
    transport_timer := 0
    transport_dest_room := 0
    current_melody := WMelody.mnone
    melody_step := 0
    led_cnt := 0
    active_wumpus_mode := false
    sound_mode_on := false
    rpos := 0
    death_display := Option.none }

/-- Embeds `wumpus_face_activate`: start a new game and play the startup melody. -/
def activateFace (g : Rng) (fuel pos : Nat) : Option WState :=
  match initGame g fuel { initialState with rpos := pos } with
  | Option.none => Option.none
  | some s => some (playMelody WMelody.startup s)

/-- Result of the shot-resolution loop in `_shot`. -/
inductive ShotOutcome where
  | missed
  | selfDied
  | wonHit
deriving DecidableEq, Repr

/-- What happens at one path room: stop the traversal with an outcome, or
continue with a (possibly bat-cleared) hazard field. -/
inductive VisitResult where
  | stop (o : ShotOutcome)
  | goOn (hz : List WHazard)
deriving DecidableEq, Repr

/-- The per-room checks of `_shot` (after any crooked-arrow substitution):
self-hit, then bat (killed in flight), then wumpus (win), else continue. -/
def visitRoom (pr room : Nat) (hz : List WHazard) : VisitResult :=
  if room = pr then VisitResult.stop ShotOutcome.selfDied
  else if hz.getD room WHazard.none = WHazard.bat then
    VisitResult.goOn (hz.set room WHazard.none)
  else if hz.getD room WHazard.none = WHazard.wumpus then
    VisitResult.stop ShotOutcome.wonHit
  else VisitResult.goOn hz

/-- The crooked-arrow adjustment of `_shot` at index `i`: for `i ≥ 1`, if the
previous path room is not adjacent to this one, overwrite this path entry
with a uniformly drawn neighbor of the previous room. -/
def adjustEntry (g : Rng) (path : List Nat) (i pos : Nat) : List Nat × Nat :=
  if i = 0 then (path, pos)
  else if adjacentRooms (path.getD (i - 1) 0) (path.getD i 0) then (path, pos)
  else (path.set i (nthNeighbor (path.getD (i - 1) 0) (getRand g 3 pos)), pos + 1)

/-- The path-walking loop of `_shot`, from index `i` with `steps` entries left
(`steps = shots_path_len - i`).  Returns the outcome, the (in-place mutated)
path, the hazard field, and the RNG cursor. -/
def shotLoop (g : Rng) (pr : Nat) :
    Nat → List Nat → List WHazard → Nat → Nat → ShotOutcome × List Nat × List WHazard × Nat
  | _, path, hz, pos, 0 => (ShotOutcome.missed, path, hz, pos)
  | i, path, hz, pos, steps + 1 =>
    let ap := adjustEntry g path i pos
    match visitRoom pr (ap.1.getD i 0) hz with
    | VisitResult.stop o => (o, ap.1, hz, ap.2)
    | VisitResult.goOn hz1 => shotLoop g pr (i + 1) ap.1 hz1 ap.2 steps

/-- Embeds `_shot`: decrement arrows (death by exhaustion if the count goes
negative), then walk the committed path. -/
def shot (g : Rng) (s : WState) : WAction × WState :=
  let arrows1 := s.arrows - 1
  let s1 : WState := { s with arrows := arrows1 }
  if arrows1 < 0 then (WAction.died, displayDeath WHazard.arrow s1)
  else
    match shotLoop g s1.player_room 0 s1.shots_path s1.hazards s1.rpos s1.shots_path_len with
    | (ShotOutcome.missed, p, h, pos) =>
      (WAction.shoot, { s1 with shots_path := p, hazards := h, rpos := pos })
    | (ShotOutcome.selfDied, p, h, pos) =>
      (WAction.died, displayDeath WHazard.arrow { s1 with shots_path := p, hazards := h, rpos := pos })
    | (ShotOutcome.wonHit, p, h, pos) =>
      (WAction.won, { s1 with shots_path := p, hazards := h, rpos := pos })

/-- The events the loop consumes (`EVENT_TICK`, the two short presses, the
two long presses, `EVENT_ACTIVATE`). -/
inductive WEvent where
  | tick
  | light_up
  | light_long
  | alarm_up
  | alarm_long
  | screen_on
deriving DecidableEq, Repr

/-- The `EVENT_LIGHT_BUTTON_UP` ("cycle") handler. -/
def stepCycle (s : WState) : WState :=
  match s.current_action with
  | WAction.shoot => { s with current_action := WAction.go, action_tick_show := true }
  | WAction.go => { s with current_action := WAction.shoot, action_tick_show := true }
  | WAction.shoot_n =>
    { s with shots_path_len := if 5 < s.shots_path_len + 1 then 1 else s.shots_path_len + 1,
             action_tick_show := true }
  | WAction.shoot_rooms =>
    { s with shots_room := if 20 ≤ s.shots_room + 1 then 0 else s.shots_room + 1,
             action_tick_show := true }
  | WAction.choosing_room =>
    { s with selected_room_n := if 3 ≤ s.selected_room_n + 1 then -1 else s.selected_room_n + 1 }
  | _ => s

/-- The check after the `EVENT_ALARM_BUTTON_UP` switch: in active mode, roll
`_wumpus_move`, and if the wumpus lands in the player room, death. -/
def postWumpusCheck (g : Rng) (s : WState) : WState :=
  if s.active_wumpus_mode then
    let ms := wumpusMove g s
    if ms.1 ∧ ms.2.hazards.getD ms.2.player_room WHazard.none = WHazard.wumpus then
      { displayDeath WHazard.wumpus ms.2 with current_action := WAction.died }
    else ms.2
  else s

/-- The `switch` of the `EVENT_ALARM_BUTTON_UP` ("confirm") handler.  States
with no case (`bat_transport`, `won`, `died`) fall through unchanged. -/
def confirmSwitch (g : Rng) (fuel : Nat) (s : WState) : Option WState :=
  match s.current_action with
  | WAction.go =>
    some { s with selected_room_n := -1, digits_tick_show := false,
                  action_tick_show := true, current_action := WAction.choosing_room }
  | WAction.shoot =>
    some { s with shots_path_len := 1, action_tick_show := true,
                  current_action := WAction.shoot_n }
  | WAction.shoot_n =>
    some { s with shots_room := nthNeighbor s.player_room 0, shots_picked := 0,
                  action_tick_show := true, current_action := WAction.shoot_rooms }
  | WAction.choosing_room =>
    let rs := goToSelectedRoom s
    let s1 := rs.2
    if rs.1 = WHazard.bat then
      match findSafeRandomRoom g s1.hazards fuel s1.rpos with
      | Option.none => Option.none
      | some (d, p1) =>
        some (playMelody WMelody.bats
          { s1 with current_action := WAction.bat_transport, transport_timer := 4,
                    transport_dest_room := d, rpos := p1 })
    else if rs.1 = WHazard.none then
      some (displayHazards { s1 with current_action := WAction.go, digits_tick_show := true })
    else
      some { displayDeath rs.1 s1 with current_action := WAction.died }
  | WAction.shoot_rooms =>
    let s1 : WState :=
      { s with shots_path := s.shots_path.set s.shots_picked s.shots_room,
               shots_room := 0, action_tick_show := true,
               shots_picked := s.shots_picked + 1 }
    if s1.shots_path_len ≤ s1.shots_picked then
      let as2 := shot g s1
      let s2 : WState := { as2.2 with current_action := as2.1 }
      if s2.current_action = WAction.won then some (displayWon s2)
      else
        if s2.active_wumpus_mode = false then
          let fs := wumpusFlee g s2
          if fs.1 ∧ fs.2.hazards.getD fs.2.player_room WHazard.none = WHazard.wumpus then
            some { displayDeath WHazard.wumpus fs.2 with current_action := WAction.died }
          else some fs.2
        else some s2
    else some s1
  | _ => some s

/-- The full `EVENT_ALARM_BUTTON_UP` handler: the switch, then the
active-mode wumpus movement check. -/
def stepConfirm (g : Rng) (fuel : Nat) (s : WState) : Option WState :=
  match confirmSwitch g fuel s with
  | some s1 => some (postWumpusCheck g s1)
  | Option.none => Option.none

/-- The `EVENT_TICK` handler: melody playback, win/lose LED flash (with the
game restart when the counter reaches 1, and the `uint8_t` wraparound of the
final decrement), bat transport, or the normal blinking tick. -/
def stepTick (g : Rng) (fuel : Nat) (s : WState) : Option WState :=
  if s.current_melody ≠ WMelody.mnone then
    if melodyLen s.current_melody ≤ s.melody_step then
      let s1 :=
        if s.current_melody = WMelody.win ∨ s.current_melody = WMelody.lose then
          { s with led_cnt := 3 }
        else s
      some { s1 with current_melody := WMelody.mnone, melody_step := 0 }
    else some { s with melody_step := s.melody_step + 1 }
  else if 0 < s.led_cnt then
    if s.led_cnt = 1 then
      match initGame g fuel s with
      | Option.none => Option.none
      | some s1 =>
        let s2 := displayHazards s1
        some { s2 with led_cnt := (s2.led_cnt + 255) % 256 }
    else some { s with led_cnt := (s.led_cnt + 255) % 256 }
  else if s.current_action = WAction.bat_transport then
    if 0 < s.transport_timer then some { s with transport_timer := s.transport_timer - 1 }
    else
      let s1 : WState := { s with player_room := s.transport_dest_room }
      if s1.hazards.getD s1.player_room WHazard.none = WHazard.bat then
        match findSafeRandomRoom g s1.hazards fuel s1.rpos with
        | Option.none => Option.none
        | some (d, p1) =>
          some (playMelody WMelody.bats
            { s1 with transport_dest_room := d, transport_timer := 4, rpos := p1 })
      else
        some (displayHazards { s1 with current_action := WAction.go })
  else
    let s1 :=
      if s.current_action = WAction.choosing_room then
        { s with digits_tick_show := !s.digits_tick_show }
      else if s.current_action ≠ WAction.died then
        { s with action_tick_show := !s.action_tick_show }
      else s
    if s1.current_action ≠ WAction.died then some (displayHazards s1) else some s1

/-- Embeds `wumpus_face_loop`, restricted to its game-state effects. -/
def wumpusLoop (g : Rng) (fuel : Nat) (e : WEvent) (s : WState) : Option WState :=
  match e with
  | WEvent.tick => stepTick g fuel s
  | WEvent.light_up => some (stepCycle s)
  | WEvent.light_long => some { s with active_wumpus_mode := !s.active_wumpus_mode }
  | WEvent.alarm_up => stepConfirm g fuel s
  | WEvent.alarm_long => some { s with sound_mode_on := !s.sound_mode_on }
  | WEvent.screen_on => some (displayHazards s)

/-- Run a list of events through the loop. -/
def runEvents (g : Rng) (fuel : Nat) (s : WState) : List WEvent → Option WState
  | [] => some s
  | e :: es =>
    match wumpusLoop g fuel e s with
    | some s1 => runEvents g fuel s1 es
    | Option.none => Option.none

/-- States reachable from a face activation under the given RNG stream. -/
inductive Reachable (g : Rng) (fuel : Nat) : WState → Prop where
  | init : ∀ pos s, activateFace g fuel pos = some s → Reachable g fuel s
  | step : ∀ s e s1, Reachable g fuel s → wumpusLoop g fuel e s = some s1 → Reachable g fuel s1

/-- A concrete RNG stream backed by a list (0 beyond the end). -/
def streamOf (l : List Nat) : Rng := fun n => l.getD n 0

/-- While a bat transport is pending, the chosen destination room holds no
pit.  (Pits are only ever placed by generation; the destination was drawn
pit-free and the only in-flight hazard write, a wumpus relocation, never
writes a pit.) -/
def DestPitFree (s : WState) : Prop :=
  s.current_action = WAction.bat_transport →
    s.hazards.getD s.transport_dest_room WHazard.none ≠ WHazard.pitfall

/-! ### Concrete RNG streams and event scripts used in the claims below -/

def ticksL (n : Nat) : List WEvent := List.replicate n WEvent.tick

def c1g : Rng := streamOf [0, 2, 3, 5, 6, 10, 0]

def c1evs : List WEvent := [WEvent.light_up, WEvent.alarm_up]

def c1pre : WState :=
  ((activateFace c1g 50 0).bind (fun s0 => runEvents c1g 50 s0 c1evs)).getD initialState

def c1post : WState := (stepConfirm c1g 50 c1pre).getD initialState

def c2g : Rng := streamOf [0, 2, 3, 5, 6, 1, 0, 0, 0, 0, 2, 3, 5, 6, 10]

def c2evs : List WEvent :=
  ticksL 8 ++ [WEvent.light_long, WEvent.alarm_up, WEvent.alarm_up, WEvent.alarm_up] ++ ticksL 10

def c2pre : WState :=
  ((activateFace c2g 50 0).bind (fun s0 => runEvents c2g 50 s0 c2evs)).getD initialState

def c2post : WState := (stepTick c2g 50 c2pre).getD initialState

def c5g : Rng := streamOf [0, 2, 3, 5, 6, 1, 0, 0, 0, 80, 0]

def c5evs : List WEvent :=
  [WEvent.light_long, WEvent.alarm_up, WEvent.alarm_up, WEvent.alarm_up]

def c5pre : WState :=
  ((activateFace c5g 50 0).bind (fun s0 => runEvents c5g 50 s0 c5evs)).getD initialState

def c5post : WState := (stepConfirm c5g 50 c5pre).getD initialState

def c8g : Rng := streamOf [0, 2, 3, 1, 5, 10, 0, 9, 0, 80, 0]

def c8evs : List WEvent :=
  [WEvent.light_long, WEvent.light_up, WEvent.alarm_up, WEvent.light_up,
   WEvent.alarm_up, WEvent.alarm_up] ++ ticksL 12

def c8pre : WState :=
  ((activateFace c8g 50 0).bind (fun s0 => runEvents c8g 50 s0 c8evs)).getD initialState

def c8post : WState := (stepTick c8g 50 c8pre).getD initialState

def c9g : Rng := streamOf [2, 3, 5, 6, 10]

def c9hz : List WHazard := ((generateHazards c9g 0 50 0).getD ([], 0)).1

/-! ### List helpers -/

theorem getD_set_ne {α : Type} (l : List α) (i j : Nat) (a d : α) (h : i ≠ j) :
    (l.set i a).getD j d = l.getD j d := by
  simp [List.getD_eq_getElem?_getD, List.getElem?_set_ne h]

theorem getD_set_self {α : Type} (l : List α) (i : Nat) (a d : α) (h : i < l.length) :
    (l.set i a).getD i d = a := by
  simp [List.getD_eq_getElem?_getD, List.getElem?_set_self h]

theorem getD_set_cases {α : Type} (l : List α) (i j : Nat) (a d : α) :
    (l.set i a).getD j d = a ∨ (l.set i a).getD j d = l.getD j d := by
  by_cases hij : i = j
  · subst hij
    by_cases hl : i < l.length
    · exact Or.inl (getD_set_self l i a d hl)
    · exact Or.inr (by rw [List.set_eq_of_length_le (Nat.le_of_not_lt hl)])
  · exact Or.inr (getD_set_ne l i j a d hij)

theorem getD_replicate_self {α : Type} (n j : Nat) (a : α) :
    (List.replicate n a).getD j a = a := by
  by_cases h : j < n
  · simp [List.getD_eq_getElem?_getD, List.getElem?_replicate, h]
  · simp [List.getD_eq_getElem?_getD, List.getElem?_replicate, h]

theorem count_set_of_none (l : List WHazard) (i : Nat) (a b : WHazard)
    (hi : i < l.length) (h0 : l.getD i WHazard.none = WHazard.none) :
    (l.set i a).count b =
      l.count b - (if WHazard.none = b then 1 else 0) + (if a = b then 1 else 0) := by
  have hgl : l[i] = WHazard.none := by
    rwa [List.getD_eq_getElem?_getD, List.getElem?_eq_getElem hi, Option.getD_some] at h0
  rw [List.count_set a b l i hi, hgl]
  simp only [beq_iff_eq]

/-! ### Normal forms of the state-mutating helpers -/

theorem playMelody_eq (m : WMelody) (s : WState) :
    playMelody m s = s ∨ playMelody m s = { s with current_melody := m, melody_step := 0 } := by
  unfold playMelody
  split
  · exact Or.inl rfl
  · split
    · exact Or.inl rfl
    · exact Or.inr rfl

theorem displayDeath_eq (h : WHazard) (s : WState) :
    displayDeath h s = { s with death_display := some h } ∨
    displayDeath h s = { s with death_display := some h, current_melody := WMelody.lose,
                                melody_step := 0 } := by
  unfold displayDeath
  rcases playMelody_eq WMelody.lose { s with death_display := some h } with h1 | h1
  · exact Or.inl h1
  · exact Or.inr h1

theorem displayWon_eq (s : WState) :
    displayWon s = s ∨
    displayWon s = { s with current_melody := WMelody.win, melody_step := 0 } := by
  unfold displayWon
  exact playMelody_eq WMelody.win s

theorem displayHazards_eq (s : WState) :
    ∃ hp m ms, displayHazards s =
      { s with hazard_point := hp, current_melody := m, melody_step := ms } := by
  unfold displayHazards
  by_cases h0 : (adjacentHazardList s).length = 0
  · exact ⟨s.hazard_point, s.current_melody, s.melody_step, by simp [h0]⟩
  · simp only [h0, if_false]
    rcases playMelody_eq WMelody.bats s with h1 | h1 <;>
      by_cases hc : (adjacentHazardList s).getD s.hazard_point WHazard.none = WHazard.bat <;>
        simp only [hc, if_true, if_false, h1] <;> split
    · exact ⟨0, s.current_melody, s.melody_step, rfl⟩
    · exact ⟨s.hazard_point + 1, s.current_melody, s.melody_step, rfl⟩
    · exact ⟨0, s.current_melody, s.melody_step, rfl⟩
    · exact ⟨s.hazard_point + 1, s.current_melody, s.melody_step, rfl⟩
    · exact ⟨0, WMelody.bats, 0, rfl⟩
    · exact ⟨s.hazard_point + 1, WMelody.bats, 0, rfl⟩
    · exact ⟨0, s.current_melody, s.melody_step, rfl⟩
    · exact ⟨s.hazard_point + 1, s.current_melody, s.melody_step, rfl⟩

theorem wumpusFlee_eq (g : Rng) (s : WState) :
    wumpusFlee g s = (false, s) ∨
    ∃ i t, wumpusFlee g s =
      (true, { s with hazards := (s.hazards.set i WHazard.none).set t WHazard.wumpus,
                      rpos := s.rpos + 1 }) := by
  unfold wumpusFlee
  split
  · exact Or.inr ⟨_, _, rfl⟩
  · exact Or.inl rfl

theorem wumpusMove_eq (g : Rng) (s : WState) :
    wumpusMove g s = (false, { s with rpos := s.rpos + 1 }) ∨
    wumpusMove g s = wumpusFlee g { s with rpos := s.rpos + 1 } := by
  by_cases hf : wumpusMoveFires (getRand g 100 s.rpos) = true
  · exact Or.inr (by unfold wumpusMove; simp [hf])
  · exact Or.inl (by unfold wumpusMove; simp [hf])

/-! ### Frame lemmas: which state components each helper leaves unchanged -/

theorem displayHazards_frame (s : WState) :
    (displayHazards s).player_room = s.player_room ∧
    (displayHazards s).hazards = s.hazards ∧
    (displayHazards s).arrows = s.arrows ∧
    (displayHazards s).current_action = s.current_action ∧
    (displayHazards s).selected_room_n = s.selected_room_n ∧
    (displayHazards s).transport_timer = s.transport_timer ∧
    (displayHazards s).transport_dest_room = s.transport_dest_room ∧
    (displayHazards s).led_cnt = s.led_cnt ∧
    (displayHazards s).active_wumpus_mode = s.active_wumpus_mode ∧
    (displayHazards s).sound_mode_on = s.sound_mode_on ∧
    (displayHazards s).rpos = s.rpos ∧
    (displayHazards s).shots_path = s.shots_path ∧
    (displayHazards s).shots_path_len = s.shots_path_len ∧
    (displayHazards s).shots_picked = s.shots_picked := by
  obtain ⟨hp, m, ms, h⟩ := displayHazards_eq s
  rw [h]
  exact ⟨rfl, rfl, rfl, rfl, rfl, rfl, rfl, rfl, rfl, rfl, rfl, rfl, rfl, rfl⟩

theorem displayDeath_frame (c : WHazard) (s : WState) :
    (displayDeath c s).player_room = s.player_room ∧
    (displayDeath c s).hazards = s.hazards ∧
    (displayDeath c s).arrows = s.arrows ∧
    (displayDeath c s).current_action = s.current_action ∧
    (displayDeath c s).selected_room_n = s.selected_room_n ∧
    (displayDeath c s).transport_timer = s.transport_timer ∧
    (displayDeath c s).transport_dest_room = s.transport_dest_room ∧
    (displayDeath c s).led_cnt = s.led_cnt ∧
    (displayDeath c s).active_wumpus_mode = s.active_wumpus_mode ∧
    (displayDeath c s).sound_mode_on = s.sound_mode_on ∧
    (displayDeath c s).rpos = s.rpos ∧
    (displayDeath c s).shots_path = s.shots_path ∧
    (displayDeath c s).shots_path_len = s.shots_path_len ∧
    (displayDeath c s).shots_picked = s.shots_picked ∧
    (displayDeath c s).death_display = some c := by
  rcases displayDeath_eq c s with h | h <;> rw [h] <;>
    exact ⟨rfl, rfl, rfl, rfl, rfl, rfl, rfl, rfl, rfl, rfl, rfl, rfl, rfl, rfl, rfl⟩

theorem displayWon_frame (s : WState) :
    (displayWon s).player_room = s.player_room ∧
    (displayWon s).hazards = s.hazards ∧
    (displayWon s).arrows = s.arrows ∧
    (displayWon s).current_action = s.current_action ∧
    (displayWon s).transport_dest_room = s.transport_dest_room ∧
    (displayWon s).active_wumpus_mode = s.active_wumpus_mode ∧
    (displayWon s).sound_mode_on = s.sound_mode_on ∧
    (displayWon s).rpos = s.rpos ∧
    (displayWon s).selected_room_n = s.selected_room_n ∧
    (displayWon s).transport_timer = s.transport_timer := by
  rcases displayWon_eq s with h | h <;> rw [h] <;>
    exact ⟨rfl, rfl, rfl, rfl, rfl, rfl, rfl, rfl, rfl, rfl⟩

theorem wumpusFlee_frame (g : Rng) (s : WState) :
    (wumpusFlee g s).2.player_room = s.player_room ∧
    (wumpusFlee g s).2.arrows = s.arrows ∧
    (wumpusFlee g s).2.current_action = s.current_action ∧
    (wumpusFlee g s).2.selected_room_n = s.selected_room_n ∧
    (wumpusFlee g s).2.transport_timer = s.transport_timer ∧
    (wumpusFlee g s).2.transport_dest_room = s.transport_dest_room ∧
    (wumpusFlee g s).2.led_cnt = s.led_cnt ∧
    (wumpusFlee g s).2.active_wumpus_mode = s.active_wumpus_mode ∧
    (wumpusFlee g s).2.sound_mode_on = s.sound_mode_on ∧
    (wumpusFlee g s).2.shots_path = s.shots_path ∧
    (wumpusFlee g s).2.shots_path_len = s.shots_path_len ∧
    (wumpusFlee g s).2.shots_picked = s.shots_picked ∧
    (wumpusFlee g s).2.current_melody = s.current_melody := by
  rcases wumpusFlee_eq g s with h | ⟨i, t, h⟩ <;> rw [h] <;>
    exact ⟨rfl, rfl, rfl, rfl, rfl, rfl, rfl, rfl, rfl, rfl, rfl, rfl, rfl⟩

theorem wumpusMove_frame (g : Rng) (s : WState) :
    (wumpusMove g s).2.player_room = s.player_room ∧
    (wumpusMove g s).2.arrows = s.arrows ∧
    (wumpusMove g s).2.current_action = s.current_action ∧
    (wumpusMove g s).2.selected_room_n = s.selected_room_n ∧
    (wumpusMove g s).2.transport_timer = s.transport_timer ∧
    (wumpusMove g s).2.transport_dest_room = s.transport_dest_room ∧
    (wumpusMove g s).2.led_cnt = s.led_cnt ∧
    (wumpusMove g s).2.active_wumpus_mode = s.active_wumpus_mode ∧
    (wumpusMove g s).2.sound_mode_on = s.sound_mode_on ∧
    (wumpusMove g s).2.shots_path = s.shots_path ∧
    (wumpusMove g s).2.shots_path_len = s.shots_path_len ∧
    (wumpusMove g s).2.shots_picked = s.shots_picked ∧
    (wumpusMove g s).2.current_melody = s.current_melody := by
  rcases wumpusMove_eq g s with h | h <;> rw [h]
  · exact ⟨rfl, rfl, rfl, rfl, rfl, rfl, rfl, rfl, rfl, rfl, rfl, rfl, rfl⟩
  · exact wumpusFlee_frame g { s with rpos := s.rpos + 1 }

theorem postWumpusCheck_eq (g : Rng) (s : WState) :
    postWumpusCheck g s = s ∨
    postWumpusCheck g s = (wumpusMove g s).2 ∨
    postWumpusCheck g s =
      { displayDeath WHazard.wumpus (wumpusMove g s).2 with current_action := WAction.died } := by
  unfold postWumpusCheck
  by_cases ha : s.active_wumpus_mode = true
  · simp only [ha, if_true]
    by_cases hc : ((wumpusMove g s).1 = true ∧
        (wumpusMove g s).2.hazards.getD (wumpusMove g s).2.player_room WHazard.none
          = WHazard.wumpus)
    · right; right; simp only [hc, and_self, if_true]
    · right; left; simp only [hc, if_false]
  · left
    simp only [Bool.not_eq_true] at ha
    simp only [ha, Bool.false_eq_true, if_false]

theorem postWumpusCheck_inactive (g : Rng) (s : WState) (h : s.active_wumpus_mode = false) :
    postWumpusCheck g s = s := by
  unfold postWumpusCheck
  simp only [h, Bool.false_eq_true, if_false]

theorem postWumpusCheck_frame (g : Rng) (s : WState) :
    (postWumpusCheck g s).player_room = s.player_room ∧
    (postWumpusCheck g s).arrows = s.arrows ∧
    (postWumpusCheck g s).selected_room_n = s.selected_room_n ∧
    (postWumpusCheck g s).transport_timer = s.transport_timer ∧
    (postWumpusCheck g s).transport_dest_room = s.transport_dest_room ∧
    (postWumpusCheck g s).active_wumpus_mode = s.active_wumpus_mode ∧
    (postWumpusCheck g s).sound_mode_on = s.sound_mode_on ∧
    (postWumpusCheck g s).shots_path_len = s.shots_path_len ∧
    (postWumpusCheck g s).shots_picked = s.shots_picked ∧
    ((postWumpusCheck g s).current_action = s.current_action ∨
      (postWumpusCheck g s).current_action = WAction.died) := by
  obtain ⟨m1, m2, m3, m4, m5, m6, m7, m8, m9, m10, m11, m12, m13⟩ := wumpusMove_frame g s
  obtain ⟨d1, d2, d3, d4, d5, d6, d7, d8, d9, d10, d11, d12, d13, d14, d15⟩ :=
    displayDeath_frame WHazard.wumpus (wumpusMove g s).2
  rcases postWumpusCheck_eq g s with h | h | h <;> rw [h]
  · exact ⟨rfl, rfl, rfl, rfl, rfl, rfl, rfl, rfl, rfl, Or.inl rfl⟩
  · exact ⟨m1, m2, m4, m5, m6, m8, m9, m11, m12, Or.inl m3⟩
  · refine ⟨?_, ?_, ?_, ?_, ?_, ?_, ?_, ?_, ?_, Or.inr rfl⟩ <;>
      simp only [] <;>
      first
        | exact d1.trans m1
        | exact d2.trans m2
        | exact d3.trans m2
        | exact d5.trans m4
        | exact d6.trans m5
        | exact d7.trans m6
        | exact d9.trans m8
        | exact d10.trans m9
        | exact d13.trans m11
        | exact d14.trans m12

/-! ### Postconditions of the rejection samplers -/

theorem generateUnique_spec (g : Rng) (hz : List WHazard) (pr : Nat) :
    ∀ fuel pos v p1, generateUnique g hz pr fuel pos = some (v, p1) →
      v < 20 ∧ v ≠ pr ∧ hz.getD v WHazard.none = WHazard.none := by
  intro fuel
  induction fuel with
  | zero =>
    intro pos v p1 h
    exact absurd h (by simp [generateUnique])
  | succ n ih =>
    intro pos v p1 h
    rw [generateUnique] at h
    split at h
    · rename_i hc
      simp only [Option.some.injEq, Prod.mk.injEq] at h
      obtain ⟨rfl, rfl⟩ := h
      exact ⟨Nat.mod_lt _ (by decide), hc.1, hc.2⟩
    · exact ih _ _ _ h

theorem findSafeRandomRoom_spec (g : Rng) (hz : List WHazard) :
    ∀ fuel pos r p1, findSafeRandomRoom g hz fuel pos = some (r, p1) →
      r < 20 ∧ hz.getD r WHazard.none ≠ WHazard.wumpus ∧
      hz.getD r WHazard.none ≠ WHazard.pitfall := by
  intro fuel
  induction fuel with
  | zero =>
    intro pos r p1 h
    exact absurd h (by simp [findSafeRandomRoom])
  | succ n ih =>
    intro pos r p1 h
    rw [findSafeRandomRoom] at h
    split at h
    · exact ih _ _ _ h
    · rename_i hc
      push_neg at hc
      simp only [Option.some.injEq, Prod.mk.injEq] at h
      obtain ⟨rfl, rfl⟩ := h
      exact ⟨Nat.mod_lt _ (by decide), hc.1, hc.2⟩

/-! ### Properties of game initialisation and shot resolution -/

theorem initGame_fields (g : Rng) (fuel : Nat) (s t : WState)
    (h : initGame g fuel s = some t) :
    t.active_wumpus_mode = false ∧ t.sound_mode_on = true ∧
    t.current_action = WAction.shoot ∧ t.arrows = 5 ∧
    t.current_melody = WMelody.mnone ∧ t.transport_timer = 0 := by
  unfold initGame at h
  rcases hg : generateHazards g (getRand g 20 s.rpos) fuel (s.rpos + 1) with _ | ⟨hz, p2⟩
  · simp only [hg] at h
    exact absurd h (by simp)
  · simp only [hg, Option.some.injEq] at h
    subst h
    exact ⟨rfl, rfl, rfl, rfl, rfl, rfl⟩

theorem shot_eq (g : Rng) (s : WState) :
    (s.arrows - 1 < 0 ∧
      shot g s = (WAction.died, displayDeath WHazard.arrow { s with arrows := s.arrows - 1 })) ∨
    (¬ s.arrows - 1 < 0 ∧ ∃ p h1 pos,
      (shotLoop g s.player_room 0 s.shots_path s.hazards s.rpos s.shots_path_len
          = (ShotOutcome.missed, p, h1, pos) ∧
        shot g s = (WAction.shoot,
          { s with arrows := s.arrows - 1, shots_path := p, hazards := h1, rpos := pos })) ∨
      (shotLoop g s.player_room 0 s.shots_path s.hazards s.rpos s.shots_path_len
          = (ShotOutcome.selfDied, p, h1, pos) ∧
        shot g s = (WAction.died, displayDeath WHazard.arrow
          { s with arrows := s.arrows - 1, shots_path := p, hazards := h1, rpos := pos })) ∨
      (shotLoop g s.player_room 0 s.shots_path s.hazards s.rpos s.shots_path_len
          = (ShotOutcome.wonHit, p, h1, pos) ∧
        shot g s = (WAction.won,
          { s with arrows := s.arrows - 1, shots_path := p, hazards := h1, rpos := pos }))) := by
  by_cases hneg : s.arrows - 1 < 0
  · exact Or.inl ⟨hneg, by simp only [shot, hneg, if_true]⟩
  · refine Or.inr ⟨hneg, ?_⟩
    rcases hsl : shotLoop g s.player_room 0 s.shots_path s.hazards s.rpos s.shots_path_len
      with ⟨o, p, h1, pos⟩
    refine ⟨p, h1, pos, ?_⟩
    cases o
    · exact Or.inl ⟨rfl, by simp only [shot, hneg, if_false, hsl]⟩
    · exact Or.inr (Or.inl ⟨rfl, by simp only [shot, hneg, if_false, hsl]⟩)
    · exact Or.inr (Or.inr ⟨rfl, by simp only [shot, hneg, if_false, hsl]⟩)

theorem shot_frame (g : Rng) (s : WState) :
    (shot g s).2.player_room = s.player_room ∧
    (shot g s).2.current_action = s.current_action ∧
    (shot g s).2.selected_room_n = s.selected_room_n ∧
    (shot g s).2.transport_timer = s.transport_timer ∧
    (shot g s).2.transport_dest_room = s.transport_dest_room ∧
    (shot g s).2.active_wumpus_mode = s.active_wumpus_mode ∧
    (shot g s).2.sound_mode_on = s.sound_mode_on ∧
    (shot g s).2.led_cnt = s.led_cnt ∧
    (shot g s).2.shots_path_len = s.shots_path_len ∧
    (shot g s).2.shots_picked = s.shots_picked := by
  rcases shot_eq g s with ⟨_, hs⟩ | ⟨_, p, h1, pos, ⟨_, hs⟩ | ⟨_, hs⟩ | ⟨_, hs⟩⟩ <;> rw [hs]
  · obtain ⟨d1, d2, d3, d4, d5, d6, d7, d8, d9, d10, d11, d12, d13, d14, d15⟩ :=
      displayDeath_frame WHazard.arrow { s with arrows := s.arrows - 1 }
    exact ⟨d1, d4, d5, d6, d7, d9, d10, d8, d13, d14⟩
  · exact ⟨rfl, rfl, rfl, rfl, rfl, rfl, rfl, rfl, rfl, rfl⟩
  · obtain ⟨d1, d2, d3, d4, d5, d6, d7, d8, d9, d10, d11, d12, d13, d14, d15⟩ :=
      displayDeath_frame WHazard.arrow
        { s with arrows := s.arrows - 1, shots_path := p, hazards := h1, rpos := pos }
    exact ⟨d1, d4, d5, d6, d7, d9, d10, d8, d13, d14⟩
  · exact ⟨rfl, rfl, rfl, rfl, rfl, rfl, rfl, rfl, rfl, rfl⟩

theorem shot_action_cases (g : Rng) (s : WState) :
    (shot g s).1 = WAction.died ∨ (shot g s).1 = WAction.shoot ∨
    (shot g s).1 = WAction.won := by
  rcases shot_eq g s with ⟨_, hs⟩ | ⟨_, p, h1, pos, ⟨_, hs⟩ | ⟨_, hs⟩ | ⟨_, hs⟩⟩ <;> rw [hs]
  · exact Or.inl rfl
  · exact Or.inr (Or.inl rfl)
  · exact Or.inl rfl
  · exact Or.inr (Or.inr rfl)

theorem playMelody_frame (m : WMelody) (s : WState) :
    (playMelody m s).player_room = s.player_room ∧
    (playMelody m s).hazards = s.hazards ∧
    (playMelody m s).current_action = s.current_action ∧
    (playMelody m s).transport_dest_room = s.transport_dest_room ∧
    (playMelody m s).transport_timer = s.transport_timer ∧
    (playMelody m s).arrows = s.arrows ∧
    (playMelody m s).active_wumpus_mode = s.active_wumpus_mode ∧
    (playMelody m s).sound_mode_on = s.sound_mode_on ∧
    (playMelody m s).rpos = s.rpos ∧
    (playMelody m s).led_cnt = s.led_cnt ∧
    (playMelody m s).selected_room_n = s.selected_room_n := by
  rcases playMelody_eq m s with h | h <;> rw [h] <;>
    exact ⟨rfl, rfl, rfl, rfl, rfl, rfl, rfl, rfl, rfl, rfl, rfl⟩

theorem goToSelectedRoom_frame (s : WState) :
    (goToSelectedRoom s).2.hazards = s.hazards ∧
    (goToSelectedRoom s).2.current_action = s.current_action ∧
    (goToSelectedRoom s).2.transport_dest_room = s.transport_dest_room ∧
    (goToSelectedRoom s).2.transport_timer = s.transport_timer ∧
    (goToSelectedRoom s).2.arrows = s.arrows ∧
    (goToSelectedRoom s).2.active_wumpus_mode = s.active_wumpus_mode ∧
    (goToSelectedRoom s).2.sound_mode_on = s.sound_mode_on ∧
    (goToSelectedRoom s).2.rpos = s.rpos ∧
    (goToSelectedRoom s).2.selected_room_n = s.selected_room_n := by
  unfold goToSelectedRoom
  split <;> exact ⟨rfl, rfl, rfl, rfl, rfl, rfl, rfl, rfl, rfl⟩

/-! ### The bat-transport destination invariant -/

theorem destPitFree_of_ne (s : WState) (h : s.current_action ≠ WAction.bat_transport) :
    DestPitFree s := fun ha => absurd ha h

theorem destPitFree_congr (s t : WState)
    (ha : t.current_action = s.current_action)
    (hh : t.hazards = s.hazards) (hd : t.transport_dest_room = s.transport_dest_room)
    (h : DestPitFree s) : DestPitFree t := by
  intro hb
  rw [hh, hd]
  exact h (ha.symm.trans hb)

theorem wumpusFlee_getD_no_pit (g : Rng) (s : WState) (d : Nat)
    (h : s.hazards.getD d WHazard.none ≠ WHazard.pitfall) :
    (wumpusFlee g s).2.hazards.getD d WHazard.none ≠ WHazard.pitfall := by
  rcases wumpusFlee_eq g s with he | ⟨i, t, he⟩ <;> rw [he]
  · exact h
  · show ((s.hazards.set i WHazard.none).set t WHazard.wumpus).getD d WHazard.none
      ≠ WHazard.pitfall
    rcases getD_set_cases (s.hazards.set i WHazard.none) t d WHazard.wumpus WHazard.none
      with h1 | h1 <;> rw [h1]
    · simp
    · rcases getD_set_cases s.hazards i d WHazard.none WHazard.none with h2 | h2 <;> rw [h2]
      · simp
      · exact h

theorem destPitFree_wumpusMove (g : Rng) (s : WState) (h : DestPitFree s) :
    DestPitFree (wumpusMove g s).2 := by
  rcases wumpusMove_eq g s with he | he <;> rw [he]
  · exact fun hb => h hb
  · intro hb
    obtain ⟨f1, f2, f3, f4, f5, f6, f7, f8, f9, f10, f11, f12, f13⟩ :=
      wumpusFlee_frame g { s with rpos := s.rpos + 1 }
    rw [f6]
    exact wumpusFlee_getD_no_pit g _ _ (h (f3.symm.trans hb))

theorem destPitFree_postWumpusCheck (g : Rng) (s : WState) (h : DestPitFree s) :
    DestPitFree (postWumpusCheck g s) := by
  rcases postWumpusCheck_eq g s with he | he | he <;> rw [he]
  · exact h
  · exact destPitFree_wumpusMove g s h
  · intro hb
    simp at hb

theorem destPitFree_playMelody (m : WMelody) (s : WState) (h : DestPitFree s) :
    DestPitFree (playMelody m s) := by
  rcases playMelody_eq m s with hm | hm <;> rw [hm]
  · exact h
  · intro hx
    exact h hx

theorem destPitFree_displayHazards (s : WState) (h : DestPitFree s) :
    DestPitFree (displayHazards s) := by
  obtain ⟨hp, m, ms, hd⟩ := displayHazards_eq s
  rw [hd]
  intro hx
  exact h hx

theorem destPitFree_confirmSwitch (g : Rng) (fuel : Nat) (s s1 : WState)
    (h : DestPitFree s) (hc : confirmSwitch g fuel s = some s1) : DestPitFree s1 := by
  cases hca : s.current_action
  case shoot =>
    simp only [confirmSwitch, hca, Option.some.injEq] at hc
    subst hc
    intro hx; simp at hx
  case go =>
    simp only [confirmSwitch, hca, Option.some.injEq] at hc
    subst hc
    intro hx; simp at hx
  case shoot_n =>
    simp only [confirmSwitch, hca, Option.some.injEq] at hc
    subst hc
    intro hx; simp at hx
  case choosing_room =>
    simp only [confirmSwitch, hca] at hc
    by_cases hb : (goToSelectedRoom s).1 = WHazard.bat
    · simp only [hb, if_true] at hc
      rcases hf : findSafeRandomRoom g (goToSelectedRoom s).2.hazards fuel
          (goToSelectedRoom s).2.rpos with _ | ⟨d, p1⟩
      · rw [hf] at hc
        exact absurd hc (by simp)
      · rw [hf] at hc
        simp only [Option.some.injEq] at hc
        subst hc
        apply destPitFree_playMelody
        intro _
        exact (findSafeRandomRoom_spec g _ fuel _ d p1 hf).2.2
    · by_cases hn : (goToSelectedRoom s).1 = WHazard.none
      · simp only [hb, if_false] at hc
        simp only [hn, if_true, Option.some.injEq] at hc
        subst hc
        apply destPitFree_displayHazards
        intro hx; simp at hx
      · simp only [hb, hn, if_false, Option.some.injEq] at hc
        subst hc
        intro hx; simp at hx
  case shoot_rooms =>
    have hsa := shot_action_cases g
      { s with current_action := WAction.shoot_rooms,
               shots_path := s.shots_path.set s.shots_picked s.shots_room,
               shots_room := 0, action_tick_show := true,
               shots_picked := s.shots_picked + 1 }
    simp only [confirmSwitch, hca] at hc
    split at hc
    · -- path complete: the arrow is fired
      split at hc
      · -- wumpus hit: display the win
        simp only [Option.some.injEq] at hc
        subst hc
        refine destPitFree_of_ne _ ?_
        intro hx
        have hx2 := ((displayWon_frame _).2.2.2.1).symm.trans hx
        rcases hsa with ha | ha | ha <;>
          exact WAction.noConfusion (ha.symm.trans hx2)
      · -- missed or died: in stationary mode the wumpus flees
        split at hc
        · split at hc
          · simp only [Option.some.injEq] at hc
            subst hc
            intro hx; simp at hx
          · simp only [Option.some.injEq] at hc
            subst hc
            refine destPitFree_of_ne _ ?_
            intro hx
            have hx2 := ((wumpusFlee_frame g _).2.2.1).symm.trans hx
            rcases hsa with ha | ha | ha <;>
              exact WAction.noConfusion (ha.symm.trans hx2)
        · simp only [Option.some.injEq] at hc
          subst hc
          refine destPitFree_of_ne _ ?_
          intro hx
          rcases hsa with ha | ha | ha <;>
            exact WAction.noConfusion (ha.symm.trans hx)
    · simp only [Option.some.injEq] at hc
      subst hc
      intro hx; simp at hx
  case bat_transport =>
    simp only [confirmSwitch, hca, Option.some.injEq] at hc
    subst hc
    exact h
  case died =>
    simp only [confirmSwitch, hca, Option.some.injEq] at hc
    subst hc
    exact h
  case won =>
    simp only [confirmSwitch, hca, Option.some.injEq] at hc
    subst hc
    exact h

theorem destPitFree_stepConfirm (g : Rng) (fuel : Nat) (s s1 : WState)
    (h : DestPitFree s) (hc : stepConfirm g fuel s = some s1) : DestPitFree s1 := by
  unfold stepConfirm at hc
  rcases hcs : confirmSwitch g fuel s with _ | t
  · rw [hcs] at hc
    exact absurd hc (by simp)
  · rw [hcs] at hc
    simp only [Option.some.injEq] at hc
    subst hc
    exact destPitFree_postWumpusCheck g t (destPitFree_confirmSwitch g fuel s t h hcs)

theorem destPitFree_stepTick (g : Rng) (fuel : Nat) (s s1 : WState)
    (h : DestPitFree s) (hc : stepTick g fuel s = some s1) : DestPitFree s1 := by
  by_cases hm : s.current_melody = WMelody.mnone
  · simp only [stepTick, hm, ne_eq, not_true_eq_false, if_false] at hc
    by_cases hl : 0 < s.led_cnt
    · simp only [hl, if_true] at hc
      by_cases hl1 : s.led_cnt = 1
      · simp only [hl1, if_true] at hc
        rcases hi : initGame g fuel s with _ | t
        · rw [hi] at hc
          exact absurd hc (by simp)
        · rw [hi] at hc
          simp only [Option.some.injEq] at hc
          subst hc
          intro hx
          have hca := (initGame_fields g fuel s t hi).2.2.1
          have hdh := (displayHazards_frame t).2.2.2.1
          exact WAction.noConfusion ((hdh.trans hca).symm.trans hx)
      · simp only [hl1, if_false, Option.some.injEq] at hc
        subst hc
        intro hx
        exact h hx
    · simp only [hl, if_false] at hc
      by_cases hb : s.current_action = WAction.bat_transport
      · simp only [hb, if_true] at hc
        by_cases ht : 0 < s.transport_timer
        · simp only [ht, if_true, Option.some.injEq] at hc
          subst hc
          intro hx
          exact h hb
        · simp only [ht, if_false] at hc
          by_cases hbat : s.hazards.getD s.transport_dest_room WHazard.none = WHazard.bat
          · simp only [hbat, if_true] at hc
            rcases hf : findSafeRandomRoom g s.hazards fuel s.rpos with _ | ⟨d, p1⟩
            · rw [hf] at hc
              exact absurd hc (by simp)
            · rw [hf] at hc
              simp only [Option.some.injEq] at hc
              subst hc
              apply destPitFree_playMelody
              intro _
              exact (findSafeRandomRoom_spec g _ fuel _ d p1 hf).2.2
          · simp only [hbat, if_false, Option.some.injEq] at hc
            subst hc
            apply destPitFree_displayHazards
            intro hx
            simp at hx
      · simp only [hb, if_false] at hc
        by_cases hcr : s.current_action = WAction.choosing_room
        · simp [hcr] at hc
          subst hc
          apply destPitFree_displayHazards
          intro hx
          exact WAction.noConfusion hx
        · by_cases hd : s.current_action = WAction.died
          · simp [hcr, hd] at hc
            subst hc
            exact h
          · simp [hcr, hd] at hc
            subst hc
            apply destPitFree_displayHazards
            intro hx
            exact absurd hx hb
  · simp only [stepTick, hm, ne_eq, not_false_eq_true, if_true] at hc
    by_cases h2 : melodyLen s.current_melody ≤ s.melody_step
    · simp only [h2, if_true] at hc
      by_cases h3 : s.current_melody = WMelody.win ∨ s.current_melody = WMelody.lose
      · simp only [h3, if_true, Option.some.injEq] at hc
        subst hc
        intro hx
        exact h hx
      · simp only [h3, if_false, Option.some.injEq] at hc
        subst hc
        intro hx
        exact h hx
    · simp only [h2, if_false, Option.some.injEq] at hc
      subst hc
      intro hx
      exact h hx

theorem destPitFree_stepCycle (s : WState) (h : DestPitFree s) :
    DestPitFree (stepCycle s) := by
  cases hca : s.current_action <;> simp only [stepCycle, hca]
  case shoot => intro hx; simp at hx
  case go => intro hx; simp at hx
  case shoot_n => intro hx; simp at hx
  case shoot_rooms => intro hx; simp at hx
  case choosing_room => intro hx; simp at hx
  case bat_transport => exact h
  case died => exact h
  case won => exact h

theorem destPitFree_activate (g : Rng) (fuel pos : Nat) (s : WState)
    (h : activateFace g fuel pos = some s) : DestPitFree s := by
  unfold activateFace at h
  rcases hi : initGame g fuel { initialState with rpos := pos } with _ | t
  · rw [hi] at h
    exact absurd h (by simp)
  · rw [hi] at h
    simp only [Option.some.injEq] at h
    subst h
    apply destPitFree_playMelody
    intro hx
    exact WAction.noConfusion
      (((initGame_fields g fuel _ t hi).2.2.1).symm.trans hx)

/-- Invariant: in every reachable state, a pending bat-transport destination
holds no pit. -/
theorem reachable_destPitFree (g : Rng) (fuel : Nat) (s : WState)
    (h : Reachable g fuel s) : DestPitFree s := by
  induction h with
  | init pos s hs => exact destPitFree_activate g fuel pos s hs
  | step s e s1 hr hstep ih =>
    cases e
    case tick => exact destPitFree_stepTick g fuel s s1 ih hstep
    case light_up =>
      simp only [wumpusLoop, Option.some.injEq] at hstep
      subst hstep
      exact destPitFree_stepCycle s ih
    case light_long =>
      simp only [wumpusLoop, Option.some.injEq] at hstep
      subst hstep
      intro hx
      exact ih hx
    case alarm_up => exact destPitFree_stepConfirm g fuel s s1 ih hstep
    case alarm_long =>
      simp only [wumpusLoop, Option.some.injEq] at hstep
      subst hstep
      intro hx
      exact ih hx
    case screen_on =>
      simp only [wumpusLoop, Option.some.injEq] at hstep
      subst hstep
      exact destPitFree_displayHazards s ih

theorem reachable_runEvents (g : Rng) (fuel : Nat) (evs : List WEvent) :
    ∀ s s1, Reachable g fuel s → runEvents g fuel s evs = some s1 →
      Reachable g fuel s1 := by
  induction evs with
  | nil =>
    intro s s1 h hr
    simp only [runEvents, Option.some.injEq] at hr
    subst hr
    exact h
  | cons e es ih =>
    intro s s1 h hr
    rw [runEvents] at hr
    rcases hw : wumpusLoop g fuel e s with _ | t
    · rw [hw] at hr
      exact absurd hr (by simp)
    · rw [hw] at hr
      exact ih t s1 (Reachable.step s e t h hw) hr

/-! ### Counting hazards placed by generation -/

theorem counts_after_set (l : List WHazard) (i : Nat) (a : WHazard)
    (hi : i < l.length) (h0 : l.getD i WHazard.none = WHazard.none) (ha : a ≠ WHazard.none) :
    (l.set i a).count a = l.count a + 1 ∧
    (∀ b, b ≠ a → b ≠ WHazard.none → (l.set i a).count b = l.count b) ∧
    (l.set i a).count WHazard.none = l.count WHazard.none - 1 := by
  refine ⟨?_, ?_, ?_⟩
  · rw [count_set_of_none l i a a hi h0]
    simp [Ne.symm ha]
  · intro b hb1 hb2
    rw [count_set_of_none l i a b hi h0]
    simp [Ne.symm hb2, Ne.symm hb1]
  · rw [count_set_of_none l i a WHazard.none hi h0]
    simp [ha]

theorem stepConfirm_eq_of (g : Rng) (fuel : Nat) (s t : WState)
    (h : confirmSwitch g fuel s = some t) :
    stepConfirm g fuel s = some (postWumpusCheck g t) := by
  unfold stepConfirm
  rw [h]

theorem nthNeighbor_adjacent :
    ∀ p : Fin 20, ∀ k : Fin 3, adjacentRooms p.val (nthNeighbor p.val k.val) = true := by
  decide

/-! ### Claims -/

/-- C3 counterexample: the relocation test `rand(100) > 75` fires on the
draws 76..99, a set of 24 values, not 25 as the claim states. -/
theorem c3_move_prob_counterexample :
    ¬ ((Finset.range 100).filter (fun r => wumpusMoveFires r = true)).card = 25 := by
  decide

/-- C3 (amended): in active-monster mode the per-eligible-action relocation
test succeeds with probability exactly 24/100: the monster relocation is
attempted iff the uniform draw from `[0,100)` falls in a set of exactly 24 of
the 100 equally likely values (those strictly greater than
`WUMPUS_MOVE_PROB = 75`), and the monster then relocates iff it is present in
the field (the flee routine found it). -/
theorem wumpus_move_probability (g : Rng) (s : WState) :
    ((Finset.range 100).filter (fun r => wumpusMoveFires r = true)).card = 24 ∧
    ((wumpusMove g s).1 = true ↔
      (wumpusMoveFires (getRand g 100 s.rpos) = true ∧
       (wumpusFlee g { s with rpos := s.rpos + 1 }).1 = true)) := by
  constructor
  · decide
  · by_cases hf : wumpusMoveFires (getRand g 100 s.rpos) = true
    · have he : wumpusMove g s = wumpusFlee g { s with rpos := s.rpos + 1 } := by
        unfold wumpusMove
        simp [hf]
      rw [he]
      simp [hf]
    · have he : wumpusMove g s = (false, { s with rpos := s.rpos + 1 }) := by
        unfold wumpusMove
        simp [hf]
      rw [he]
      simp [hf]

/-- C4 (confirmed): when the arrow count is zero before a shot, shot
resolution yields the terminal `died` outcome with displayed cause `arrow`
(out of arrows), traverses no path room (the path buffer and the RNG cursor
are untouched), and leaves the hazard field and the player room unchanged. -/
theorem shot_out_of_arrows (g : Rng) (s : WState) (h : s.arrows = 0) :
    (shot g s).1 = WAction.died ∧
    (shot g s).2.death_display = some WHazard.arrow ∧
    (shot g s).2.hazards = s.hazards ∧
    (shot g s).2.player_room = s.player_room ∧
    (shot g s).2.shots_path = s.shots_path ∧
    (shot g s).2.rpos = s.rpos ∧
    (shot g s).2.arrows = -1 := by
  have hneg : s.arrows - 1 < 0 := by
    rw [h]
    decide
  have hs : shot g s =
      (WAction.died, displayDeath WHazard.arrow { s with arrows := s.arrows - 1 }) := by
    simp only [shot, hneg, if_true]
  rw [hs]
  obtain ⟨d1, d2, d3, d4, d5, d6, d7, d8, d9, d10, d11, d12, d13, d14, d15⟩ :=
    displayDeath_frame WHazard.arrow { s with arrows := s.arrows - 1 }
  refine ⟨rfl, d15, d2, d1, d12, d11, ?_⟩
  rw [d3, h]
  simp

/-- C4 witness: the zero-initialised boot state has zero arrows; firing from
it dies of arrow exhaustion without touching the field. -/
theorem shot_out_of_arrows_witness :
    (shot (streamOf []) initialState).1 = WAction.died ∧
    (shot (streamOf []) initialState).2.death_display = some WHazard.arrow ∧
    (shot (streamOf []) initialState).2.hazards = initialState.hazards ∧
    (shot (streamOf []) initialState).2.player_room = initialState.player_room ∧
    (shot (streamOf []) initialState).2.shots_path = initialState.shots_path ∧
    (shot (streamOf []) initialState).2.rpos = initialState.rpos ∧
    (shot (streamOf []) initialState).2.arrows = -1 :=
  shot_out_of_arrows (streamOf []) initialState rfl

/-- C10 (confirmed): shot resolution never changes the player room, whatever
the committed path and outcome. -/
theorem shot_preserves_player_room (g : Rng) (s : WState) :
    (shot g s).2.player_room = s.player_room :=
  (shot_frame g s).1

/-- C6 (confirmed): during shot resolution, a path entry at index ≥ 1 whose
predecessor room is not adjacent to it in the topology is replaced in place,
before the self-hit and hazard checks on that entry, by the neighbor of the
predecessor picked by the uniform draw; the replacement is always a valid
neighbor of the predecessor, and the loop step then runs its checks on the
replaced entry. -/
theorem crooked_arrow_replacement (g : Rng) (path : List Nat) (i pos : Nat)
    (h0 : 0 < i) (hlen : i < path.length) (hprev : path.getD (i - 1) 0 < 20)
    (hadj : adjacentRooms (path.getD (i - 1) 0) (path.getD i 0) = false) :
    adjustEntry g path i pos =
      (path.set i (nthNeighbor (path.getD (i - 1) 0) (getRand g 3 pos)), pos + 1) ∧
    (adjustEntry g path i pos).1.getD i 0 =
      nthNeighbor (path.getD (i - 1) 0) (getRand g 3 pos) ∧
    adjacentRooms (path.getD (i - 1) 0) ((adjustEntry g path i pos).1.getD i 0) = true ∧
    ∀ (pr : Nat) (hz : List WHazard) (steps : Nat),
      shotLoop g pr i path hz pos (steps + 1) =
        (match visitRoom pr ((adjustEntry g path i pos).1.getD i 0) hz with
         | VisitResult.stop o => (o, (adjustEntry g path i pos).1, hz, (adjustEntry g path i pos).2)
         | VisitResult.goOn hz1 =>
             shotLoop g pr (i + 1) (adjustEntry g path i pos).1 hz1
               (adjustEntry g path i pos).2 steps) := by
  have hi0 : i ≠ 0 := Nat.pos_iff_ne_zero.mp h0
  have hae : adjustEntry g path i pos =
      (path.set i (nthNeighbor (path.getD (i - 1) 0) (getRand g 3 pos)), pos + 1) := by
    unfold adjustEntry
    simp only [hi0, if_false, hadj, Bool.false_eq_true]
  have hget : (adjustEntry g path i pos).1.getD i 0 =
      nthNeighbor (path.getD (i - 1) 0) (getRand g 3 pos) := by
    rw [hae]
    exact getD_set_self path i _ 0 hlen
  refine ⟨hae, hget, ?_, ?_⟩
  · rw [hget]
    exact nthNeighbor_adjacent ⟨path.getD (i - 1) 0, hprev⟩
      ⟨getRand g 3 pos, Nat.mod_lt _ (by decide)⟩
  · intro pr hz steps
    simp only [shotLoop]

/-- C6 witness: in the path `[1, 7]`, room 7 is not adjacent to room 1, so
entry 1 is replaced by the drawn neighbor of room 1 (the draw 1 picks room 2),
a valid neighbor. -/
theorem crooked_arrow_replacement_witness :
    adjustEntry (streamOf [1]) [1, 7] 1 0 =
      ([1, 7].set 1 (nthNeighbor ([1, 7].getD 0 0) (getRand (streamOf [1]) 3 0)), 0 + 1) ∧
    adjacentRooms ([1, 7].getD 0 0) ((adjustEntry (streamOf [1]) [1, 7] 1 0).1.getD 1 0)
      = true := by
  obtain ⟨ha, hb, hc, hd⟩ := crooked_arrow_replacement (streamOf [1]) [1, 7] 1 0
    (by decide) (by decide) (by decide) (by decide)
  exact ⟨ha, hc⟩

/-- C7 (confirmed): at each path room during shot resolution (after any
crooked-arrow substitution): a room equal to the player room stops the
traversal with a self-inflicted death (mapped to terminal `died` with
displayed cause `arrow`); a bat is removed from the hazard field and
traversal continues; the wumpus stops the traversal immediately with the
win outcome (mapped to terminal `won`); a pit or an empty room continues to
the next index. -/
theorem shot_path_room_checks (pr room : Nat) (hz : List WHazard) :
    (room = pr → visitRoom pr room hz = VisitResult.stop ShotOutcome.selfDied) ∧
    (room ≠ pr → hz.getD room WHazard.none = WHazard.bat →
      visitRoom pr room hz = VisitResult.goOn (hz.set room WHazard.none)) ∧
    (room ≠ pr → hz.getD room WHazard.none = WHazard.wumpus →
      visitRoom pr room hz = VisitResult.stop ShotOutcome.wonHit) ∧
    (room ≠ pr →
      (hz.getD room WHazard.none = WHazard.pitfall ∨
        hz.getD room WHazard.none = WHazard.none) →
      visitRoom pr room hz = VisitResult.goOn hz) ∧
    (∀ (g : Rng) (i q steps : Nat) (path : List Nat) (hzc : List WHazard) (o : ShotOutcome),
      visitRoom pr ((adjustEntry g path i q).1.getD i 0) hzc = VisitResult.stop o →
      shotLoop g pr i path hzc q (steps + 1) =
        (o, (adjustEntry g path i q).1, hzc, (adjustEntry g path i q).2)) ∧
    (∀ (g : Rng) (i q steps : Nat) (path : List Nat) (hzc hz1 : List WHazard),
      visitRoom pr ((adjustEntry g path i q).1.getD i 0) hzc = VisitResult.goOn hz1 →
      shotLoop g pr i path hzc q (steps + 1) =
        shotLoop g pr (i + 1) (adjustEntry g path i q).1 hz1 (adjustEntry g path i q).2 steps) ∧
    (∀ (g : Rng) (s : WState) (p : List Nat) (h2 : List WHazard) (q : Nat),
      ¬ s.arrows - 1 < 0 →
      shotLoop g s.player_room 0 s.shots_path s.hazards s.rpos s.shots_path_len
        = (ShotOutcome.selfDied, p, h2, q) →
      (shot g s).1 = WAction.died ∧ (shot g s).2.death_display = some WHazard.arrow) ∧
    (∀ (g : Rng) (s : WState) (p : List Nat) (h2 : List WHazard) (q : Nat),
      ¬ s.arrows - 1 < 0 →
      shotLoop g s.player_room 0 s.shots_path s.hazards s.rpos s.shots_path_len
        = (ShotOutcome.wonHit, p, h2, q) →
      (shot g s).1 = WAction.won) := by
  refine ⟨?_, ?_, ?_, ?_, ?_, ?_, ?_, ?_⟩
  · intro he
    unfold visitRoom
    simp [he]
  · intro hne hb
    unfold visitRoom
    rw [if_neg hne, if_pos hb]
  · intro hne hw
    unfold visitRoom
    have hnb : ¬ hz.getD room WHazard.none = WHazard.bat := by
      rw [hw]
      decide
    rw [if_neg hne, if_neg hnb, if_pos hw]
  · intro hne hpn
    unfold visitRoom
    have hnb : ¬ hz.getD room WHazard.none = WHazard.bat := by
      rcases hpn with hp | hp <;> rw [hp] <;> decide
    have hnw : ¬ hz.getD room WHazard.none = WHazard.wumpus := by
      rcases hpn with hp | hp <;> rw [hp] <;> decide
    rw [if_neg hne, if_neg hnb, if_neg hnw]
  · intro g i q steps path hzc o hv
    simp only [shotLoop, hv]
  · intro g i q steps path hzc hz1 hv
    simp only [shotLoop, hv]
  · intro g s p h2 q hneg hsl
    have hs : shot g s = (WAction.died, displayDeath WHazard.arrow
        { s with arrows := s.arrows - 1, shots_path := p, hazards := h2, rpos := q }) := by
      simp only [shot, hneg, if_false, hsl]
    rw [hs]
    obtain ⟨d1, d2, d3, d4, d5, d6, d7, d8, d9, d10, d11, d12, d13, d14, d15⟩ :=
      displayDeath_frame WHazard.arrow
        { s with arrows := s.arrows - 1, shots_path := p, hazards := h2, rpos := q }
    exact ⟨rfl, d15⟩
  · intro g s p h2 q hneg hsl
    have hs : shot g s = (WAction.won,
        { s with arrows := s.arrows - 1, shots_path := p, hazards := h2, rpos := q }) := by
      simp only [shot, hneg, if_false, hsl]
    rw [hs]

/-- C7 witness: the four per-room checks on the concrete field
`[none, bat, wumpus, none, pitfall]` with the player in room 3, and the
self-shot wrapper on a length-1 path aimed at the player room. -/
theorem shot_path_room_checks_witness :
    visitRoom 3 3 [WHazard.none, WHazard.bat, WHazard.wumpus, WHazard.none, WHazard.pitfall]
      = VisitResult.stop ShotOutcome.selfDied ∧
    visitRoom 3 1 [WHazard.none, WHazard.bat, WHazard.wumpus, WHazard.none, WHazard.pitfall]
      = VisitResult.goOn
        ([WHazard.none, WHazard.bat, WHazard.wumpus, WHazard.none, WHazard.pitfall].set 1
          WHazard.none) ∧
    visitRoom 3 2 [WHazard.none, WHazard.bat, WHazard.wumpus, WHazard.none, WHazard.pitfall]
      = VisitResult.stop ShotOutcome.wonHit ∧
    visitRoom 3 4 [WHazard.none, WHazard.bat, WHazard.wumpus, WHazard.none, WHazard.pitfall]
      = VisitResult.goOn
        [WHazard.none, WHazard.bat, WHazard.wumpus, WHazard.none, WHazard.pitfall] ∧
    (shot (streamOf [])
      { initialState with arrows := 5, shots_path := [0, 0, 0, 0, 0],
                          shots_path_len := 1 }).1 = WAction.died := by
  refine ⟨(shot_path_room_checks 3 3
      [WHazard.none, WHazard.bat, WHazard.wumpus, WHazard.none, WHazard.pitfall]).1 rfl,
    (shot_path_room_checks 3 1
      [WHazard.none, WHazard.bat, WHazard.wumpus, WHazard.none, WHazard.pitfall]).2.1
      (by decide) (by decide),
    (shot_path_room_checks 3 2
      [WHazard.none, WHazard.bat, WHazard.wumpus, WHazard.none, WHazard.pitfall]).2.2.1
      (by decide) (by decide),
    (shot_path_room_checks 3 4
      [WHazard.none, WHazard.bat, WHazard.wumpus, WHazard.none, WHazard.pitfall]).2.2.2.1
      (by decide) (Or.inl (by decide)), ?_⟩
  exact ((shot_path_room_checks 3 3 []).2.2.2.2.2.2.1 (streamOf [])
    { initialState with arrows := 5, shots_path := [0, 0, 0, 0, 0], shots_path_len := 1 }
    [0, 0, 0, 0, 0] (List.replicate 20 WHazard.none) 0 (by decide) (by decide)).1

theorem generateHazards_elim (g : Rng) (pr fuel pos : Nat) (hz : List WHazard) (p1 : Nat)
    (h : generateHazards g pr fuel pos = some (hz, p1)) :
    ∃ r1 q1 r2 q2 r3 q3 r4 q4 r5,
      generateUnique g (List.replicate 20 WHazard.none) pr fuel pos = some (r1, q1) ∧
      generateUnique g ((List.replicate 20 WHazard.none).set r1 WHazard.pitfall)
        pr fuel q1 = some (r2, q2) ∧
      generateUnique g (((List.replicate 20 WHazard.none).set r1 WHazard.pitfall).set r2
        WHazard.pitfall) pr fuel q2 = some (r3, q3) ∧
      generateUnique g ((((List.replicate 20 WHazard.none).set r1 WHazard.pitfall).set r2
        WHazard.pitfall).set r3 WHazard.bat) pr fuel q3 = some (r4, q4) ∧
      generateUnique g (((((List.replicate 20 WHazard.none).set r1 WHazard.pitfall).set r2
        WHazard.pitfall).set r3 WHazard.bat).set r4 WHazard.bat) pr fuel q4
        = some (r5, p1) ∧
      hz = (((((List.replicate 20 WHazard.none).set r1 WHazard.pitfall).set r2
        WHazard.pitfall).set r3 WHazard.bat).set r4 WHazard.bat).set r5 WHazard.wumpus := by
  simp only [generateHazards] at h
  cases h1 : generateUnique g (List.replicate 20 WHazard.none) pr fuel pos with
  | none =>
    rw [h1] at h
    exact absurd h (by simp)
  | some v1 =>
    obtain ⟨r1, q1⟩ := v1
    rw [h1] at h
    simp only [] at h
    cases h2 : generateUnique g ((List.replicate 20 WHazard.none).set r1 WHazard.pitfall)
        pr fuel q1 with
    | none =>
      rw [h2] at h
      exact absurd h (by simp)
    | some v2 =>
      obtain ⟨r2, q2⟩ := v2
      rw [h2] at h
      simp only [] at h
      cases h3 : generateUnique g (((List.replicate 20 WHazard.none).set r1
          WHazard.pitfall).set r2 WHazard.pitfall) pr fuel q2 with
      | none =>
        rw [h3] at h
        exact absurd h (by simp)
      | some v3 =>
        obtain ⟨r3, q3⟩ := v3
        rw [h3] at h
        simp only [] at h
        cases h4 : generateUnique g ((((List.replicate 20 WHazard.none).set r1
            WHazard.pitfall).set r2 WHazard.pitfall).set r3 WHazard.bat) pr fuel q3 with
        | none =>
          rw [h4] at h
          exact absurd h (by simp)
        | some v4 =>
          obtain ⟨r4, q4⟩ := v4
          rw [h4] at h
          simp only [] at h
          cases h5 : generateUnique g (((((List.replicate 20 WHazard.none).set r1
              WHazard.pitfall).set r2 WHazard.pitfall).set r3 WHazard.bat).set r4
              WHazard.bat) pr fuel q4 with
          | none =>
            rw [h5] at h
            exact absurd h (by simp)
          | some v5 =>
            obtain ⟨r5, q5⟩ := v5
            rw [h5] at h
            simp only [Option.some.injEq, Prod.mk.injEq] at h
            obtain ⟨hhz, hp⟩ := h
            subst hp
            exact ⟨r1, q1, r2, q2, r3, q3, r4, q4, r5, rfl, h2, h3, h4, h5, hhz.symm⟩

/-- C9 (confirmed): whenever hazard generation terminates for a given player
starting room, the resulting field has length 20 and holds exactly 1 wumpus,
exactly `WUMPUS_NUM_PITS = 2` pits and exactly `WUMPUS_NUM_BATS = 2` bats
(so the five hazards sit in five distinct rooms), none of them in the player
starting room, and the remaining 15 rooms hold no hazard. -/
theorem hazard_generation_counts (g : Rng) (pr fuel pos : Nat)
    (hz : List WHazard) (p1 : Nat)
    (h : generateHazards g pr fuel pos = some (hz, p1)) :
    hz.length = 20 ∧
    hz.count WHazard.wumpus = 1 ∧
    hz.count WHazard.pitfall = 2 ∧
    hz.count WHazard.bat = 2 ∧
    hz.count WHazard.none = 15 ∧
    hz.getD pr WHazard.none = WHazard.none := by
  obtain ⟨r1, q1, r2, q2, r3, q3, r4, q4, r5, h1, h2, h3, h4, h5, hhz⟩ :=
    generateHazards_elim g pr fuel pos hz p1 h
  obtain ⟨ha1, hb1, hc1⟩ := generateUnique_spec g _ pr fuel pos r1 q1 h1
  obtain ⟨ha2, hb2, hc2⟩ := generateUnique_spec g _ pr fuel q1 r2 q2 h2
  obtain ⟨ha3, hb3, hc3⟩ := generateUnique_spec g _ pr fuel q2 r3 q3 h3
  obtain ⟨ha4, hb4, hc4⟩ := generateUnique_spec g _ pr fuel q3 r4 q4 h4
  obtain ⟨ha5, hb5, hc5⟩ := generateUnique_spec g _ pr fuel q4 r5 p1 h5
  have hl0 : (List.replicate 20 WHazard.none).length = 20 := by simp
  have hl1 : ((List.replicate 20 WHazard.none).set r1 WHazard.pitfall).length = 20 := by simp
  have hl2 : (((List.replicate 20 WHazard.none).set r1 WHazard.pitfall).set r2
      WHazard.pitfall).length = 20 := by simp
  have hl3 : ((((List.replicate 20 WHazard.none).set r1 WHazard.pitfall).set r2
      WHazard.pitfall).set r3 WHazard.bat).length = 20 := by simp
  have hl4 : (((((List.replicate 20 WHazard.none).set r1 WHazard.pitfall).set r2
      WHazard.pitfall).set r3 WHazard.bat).set r4 WHazard.bat).length = 20 := by simp
  obtain ⟨u1, v1, w1⟩ := counts_after_set _ r1 WHazard.pitfall (by rw [hl0]; exact ha1) hc1 (by decide)
  obtain ⟨u2, v2, w2⟩ := counts_after_set _ r2 WHazard.pitfall (by rw [hl1]; exact ha2) hc2 (by decide)
  obtain ⟨u3, v3, w3⟩ := counts_after_set _ r3 WHazard.bat (by rw [hl2]; exact ha3) hc3 (by decide)
  obtain ⟨u4, v4, w4⟩ := counts_after_set _ r4 WHazard.bat (by rw [hl3]; exact ha4) hc4 (by decide)
  obtain ⟨u5, v5, w5⟩ := counts_after_set _ r5 WHazard.wumpus (by rw [hl4]; exact ha5) hc5 (by decide)
  have cw0 : (List.replicate 20 WHazard.none).count WHazard.wumpus = 0 := by decide
  have cp0 : (List.replicate 20 WHazard.none).count WHazard.pitfall = 0 := by decide
  have cb0 : (List.replicate 20 WHazard.none).count WHazard.bat = 0 := by decide
  have cn0 : (List.replicate 20 WHazard.none).count WHazard.none = 20 := by decide
  subst hhz
  refine ⟨by simp, ?_, ?_, ?_, ?_, ?_⟩
  · rw [u5, v4 _ (by decide) (by decide), v3 _ (by decide) (by decide),
      v2 _ (by decide) (by decide), v1 _ (by decide) (by decide), cw0]
  · rw [v5 _ (by decide) (by decide), v4 _ (by decide) (by decide),
      v3 _ (by decide) (by decide), u2, u1, cp0]
  · rw [v5 _ (by decide) (by decide), u4, u3, v2 _ (by decide) (by decide),
      v1 _ (by decide) (by decide), cb0]
  · rw [w5, w4, w3, w2, w1, cn0]
  · rw [getD_set_ne _ r5 pr _ _ hb5,
      getD_set_ne _ r4 pr _ _ hb4,
      getD_set_ne _ r3 pr _ _ hb3,
      getD_set_ne _ r2 pr _ _ hb2,
      getD_set_ne _ r1 pr _ _ hb1]
    exact getD_replicate_self 20 pr WHazard.none

/-- C9 witness: a concrete terminating generation run for player room 0. -/
theorem hazard_generation_counts_witness :
    c9hz.length = 20 ∧
    c9hz.count WHazard.wumpus = 1 ∧
    c9hz.count WHazard.pitfall = 2 ∧
    c9hz.count WHazard.bat = 2 ∧
    c9hz.count WHazard.none = 15 ∧
    c9hz.getD 0 WHazard.none = WHazard.none :=
  hazard_generation_counts c9g 0 50 0 c9hz 5 (by decide)

/-- C1 counterexample: a reachable state in `choosing_room` with no neighbor
selected (activate, cycle to "go", confirm).  A further confirm keeps the
player room but moves the action state to `go`: it does not stay in
`choosing_room`. -/
theorem c1_none_selected_counterexample :
    (activateFace c1g 50 0).bind (fun s0 => runEvents c1g 50 s0 c1evs) = some c1pre ∧
    c1pre.current_action = WAction.choosing_room ∧
    c1pre.selected_room_n = -1 ∧
    stepConfirm c1g 50 c1pre = some c1post ∧
    c1post.player_room = c1pre.player_room ∧
    c1post.current_action = WAction.go ∧
    c1post.current_action ≠ WAction.choosing_room := by
  decide

/-- C1 (amended): in `choosing_room` ("ChoosingDestination") with no neighbor
selected, a confirm leaves the player room unchanged, but the action state
does not stay in `choosing_room`: it becomes `go` (mode selection) — or
`died`, when active-monster mode is on and the relocation roll moves the
monster onto the player. -/
theorem confirm_none_selected (g : Rng) (fuel : Nat) (s : WState)
    (h1 : s.current_action = WAction.choosing_room) (h2 : s.selected_room_n = -1) :
    ∃ s1, stepConfirm g fuel s = some s1 ∧
      s1.player_room = s.player_room ∧
      (s1.current_action = WAction.go ∨ s1.current_action = WAction.died) ∧
      (s.active_wumpus_mode = false → s1.current_action = WAction.go) := by
  have hgo : goToSelectedRoom s = (WHazard.none, s) := by
    unfold goToSelectedRoom
    rw [h2]
    simp
  have hcs : confirmSwitch g fuel s =
      some (displayHazards { s with current_action := WAction.go,
                                    digits_tick_show := true }) := by
    simp [confirmSwitch, h1, hgo]
  obtain ⟨D1, D2, D3, D4, D5, D6, D7, D8, D9, D10, D11, D12, D13, D14⟩ :=
    displayHazards_frame { s with current_action := WAction.go, digits_tick_show := true }
  obtain ⟨P1, P2, P3, P4, P5, P6, P7, P8, P9, P10⟩ :=
    postWumpusCheck_frame g
      (displayHazards { s with current_action := WAction.go, digits_tick_show := true })
  refine ⟨_, stepConfirm_eq_of g fuel s _ hcs, ?_, ?_, ?_⟩
  · exact P1.trans D1
  · rcases P10 with hA | hA
    · exact Or.inl (hA.trans D4)
    · exact Or.inr hA
  · intro hin
    have hDact : (displayHazards
        { s with current_action := WAction.go,
                 digits_tick_show := true }).active_wumpus_mode = false := D9.trans hin
    rw [postWumpusCheck_inactive g _ hDact]
    exact D4

/-- C1 witness: the amended statement at the concrete reachable state. -/
theorem confirm_none_selected_witness :
    ∃ s1, stepConfirm c1g 50 c1pre = some s1 ∧
      s1.player_room = c1pre.player_room ∧
      (s1.current_action = WAction.go ∨ s1.current_action = WAction.died) ∧
      (c1pre.active_wumpus_mode = false → s1.current_action = WAction.go) :=
  confirm_none_selected c1g 50 c1pre (by decide) (by decide)

/-- C2 counterexample: in a session where the player turned the active-monster
flag on and then won, the restart tick (LED counter at 1) starts a fresh game
(`shoot`, 5 arrows) with the flag reset to false: the flag did not persist
across games. -/
theorem c2_settings_persist_counterexample :
    (activateFace c2g 50 0).bind (fun s0 => runEvents c2g 50 s0 c2evs) = some c2pre ∧
    c2pre.active_wumpus_mode = true ∧
    c2pre.current_melody = WMelody.mnone ∧
    c2pre.led_cnt = 1 ∧
    stepTick c2g 50 c2pre = some c2post ∧
    c2post.current_action = WAction.shoot ∧
    c2post.arrows = 5 ∧
    c2post.active_wumpus_mode = false := by
  decide

/-- C2 (amended): the two settings flags do not persist across games within a
session: the tick that restarts the game after a win or loss (LED counter at
1, no melody pending) starts a new game and resets `active_wumpus_mode` to
false and `sound_mode_on` to true, exactly as at session start. -/
theorem restart_resets_settings (g : Rng) (fuel : Nat) (s s1 : WState)
    (hm : s.current_melody = WMelody.mnone) (hl : s.led_cnt = 1)
    (h : stepTick g fuel s = some s1) :
    s1.active_wumpus_mode = false ∧ s1.sound_mode_on = true ∧
    s1.current_action = WAction.shoot ∧ s1.arrows = 5 := by
  rcases hi : initGame g fuel s with _ | t
  · have hn : stepTick g fuel s = Option.none := by
      simp [stepTick, hm, hl, hi]
    rw [hn] at h
    exact absurd h (by simp)
  · have hstep : stepTick g fuel s =
        some { displayHazards t with
               led_cnt := ((displayHazards t).led_cnt + 255) % 256 } := by
      simp [stepTick, hm, hl, hi]
    rw [hstep] at h
    simp only [Option.some.injEq] at h
    subst h
    obtain ⟨i1, i2, i3, i4, i5, i6⟩ := initGame_fields g fuel s t hi
    obtain ⟨D1, D2, D3, D4, D5, D6, D7, D8, D9, D10, D11, D12, D13, D14⟩ :=
      displayHazards_frame t
    exact ⟨D9.trans i1, D10.trans i2, D4.trans i3, D3.trans i4⟩

/-- C2 witness: the amended statement at the concrete restart tick. -/
theorem restart_resets_settings_witness :
    c2post.active_wumpus_mode = false ∧ c2post.sound_mode_on = true ∧
    c2post.current_action = WAction.shoot ∧ c2post.arrows = 5 :=
  restart_resets_settings c2g 50 c2pre c2post (by decide) (by decide) (by decide)

/-- C5 counterexample: a reachable `won` state with active-monster mode on; a
confirm relocates the monster onto the player, changing the hazard field and
turning the terminal `won` state into `died` — not a no-op. -/
theorem c5_terminal_noop_counterexample :
    (activateFace c5g 50 0).bind (fun s0 => runEvents c5g 50 s0 c5evs) = some c5pre ∧
    c5pre.current_action = WAction.won ∧
    stepConfirm c5g 50 c5pre = some c5post ∧
    c5post.current_action = WAction.died ∧
    c5post.hazards ≠ c5pre.hazards := by
  decide

/-- C5 (amended): in a terminal state (`died` or `won`), a cycle is a strict
no-op (the whole state is unchanged), and a confirm is a no-op whenever
active-monster mode is off; a confirm always leaves the player room, arrows,
selection and both settings flags unchanged, but in active-monster mode the
relocation roll still runs after the (empty) switch, so it may mutate the
hazard field and turn the state into `died`. -/
theorem terminal_state_events (g : Rng) (fuel : Nat) (s : WState)
    (h : s.current_action = WAction.died ∨ s.current_action = WAction.won) :
    stepCycle s = s ∧
    (s.active_wumpus_mode = false → stepConfirm g fuel s = some s) ∧
    ∀ s1, stepConfirm g fuel s = some s1 →
      s1.player_room = s.player_room ∧ s1.arrows = s.arrows ∧
      s1.selected_room_n = s.selected_room_n ∧
      s1.active_wumpus_mode = s.active_wumpus_mode ∧
      s1.sound_mode_on = s.sound_mode_on ∧
      (s1.current_action = s.current_action ∨ s1.current_action = WAction.died) := by
  have hcs : confirmSwitch g fuel s = some s := by
    rcases h with h | h <;> simp [confirmSwitch, h]
  refine ⟨?_, ?_, ?_⟩
  · rcases h with h | h <;> simp [stepCycle, h]
  · intro hin
    rw [stepConfirm_eq_of g fuel s s hcs, postWumpusCheck_inactive g s hin]
  · intro s1 hstep
    rw [stepConfirm_eq_of g fuel s s hcs] at hstep
    simp only [Option.some.injEq] at hstep
    subst hstep
    obtain ⟨P1, P2, P3, P4, P5, P6, P7, P8, P9, P10⟩ := postWumpusCheck_frame g s
    exact ⟨P1, P2, P3, P6, P7, P10⟩

/-- C5 witness: the amended statement at the concrete reachable `won` state
and its confirm successor. -/
theorem terminal_state_events_witness :
    stepCycle c5pre = c5pre ∧
    c5post.player_room = c5pre.player_room ∧
    c5post.arrows = c5pre.arrows ∧
    (c5post.current_action = c5pre.current_action ∨
      c5post.current_action = WAction.died) := by
  obtain ⟨W1, W2, W3⟩ := terminal_state_events c5g 50 c5pre (Or.inr (by decide))
  obtain ⟨V1, V2, V3, V4, V5, V6⟩ := W3 c5post (by decide)
  exact ⟨W1, V1, V2, V6⟩

/-- C8 counterexample: a reachable bat transport whose destination was safe at
selection; during the delay a confirm (active-monster mode) relocates the
wumpus into the destination, and the player lands in a room holding the
monster. -/
theorem c8_bat_transport_counterexample :
    (activateFace c8g 50 0).bind (fun s0 => runEvents c8g 50 s0 c8evs) = some c8pre ∧
    c8pre.current_action = WAction.bat_transport ∧
    c8pre.transport_timer = 0 ∧
    c8pre.hazards.getD c8pre.transport_dest_room WHazard.none ≠ WHazard.bat ∧
    stepTick c8g 50 c8pre = some c8post ∧
    c8post.player_room = c8pre.transport_dest_room ∧
    c8post.current_action = WAction.go ∧
    c8post.hazards.getD c8post.player_room WHazard.none = WHazard.wumpus := by
  decide

/-- C8 (amended): when a pending bat transport settles (no bat in the
destination), the player is deposited in the destination room, which at that
moment never holds a pit; at selection time the destination holds neither the
monster nor a pit, but the monster may have relocated into it during the
delay (active-monster mode), so the landing room may hold the monster — the
encounter is deferred to the next move. -/
theorem bat_transport_landing (g : Rng) (fuel : Nat) (s s1 : WState)
    (hr : Reachable g fuel s)
    (ha : s.current_action = WAction.bat_transport)
    (hm : s.current_melody = WMelody.mnone) (hl : s.led_cnt = 0)
    (ht : s.transport_timer = 0)
    (hnb : s.hazards.getD s.transport_dest_room WHazard.none ≠ WHazard.bat)
    (hstep : stepTick g fuel s = some s1) :
    s1.player_room = s.transport_dest_room ∧
    s1.current_action = WAction.go ∧
    s1.hazards = s.hazards ∧
    s1.hazards.getD s1.player_room WHazard.none ≠ WHazard.pitfall ∧
    (∀ fuel2 pos r p1, findSafeRandomRoom g s.hazards fuel2 pos = some (r, p1) →
      s.hazards.getD r WHazard.none ≠ WHazard.wumpus ∧
      s.hazards.getD r WHazard.none ≠ WHazard.pitfall) := by
  have hpd := reachable_destPitFree g fuel s hr ha
  have hnb2 := hnb
  simp only [List.getD_eq_getElem?_getD] at hnb2
  have hstep2 : stepTick g fuel s =
      some (displayHazards { s with player_room := s.transport_dest_room,
                                    current_action := WAction.go }) := by
    simp [stepTick, hm, hl, ha, ht, hnb2]
  rw [hstep2] at hstep
  simp only [Option.some.injEq] at hstep
  subst hstep
  obtain ⟨D1, D2, D3, D4, D5, D6, D7, D8, D9, D10, D11, D12, D13, D14⟩ :=
    displayHazards_frame { s with player_room := s.transport_dest_room,
                                  current_action := WAction.go }
  refine ⟨D1, D4, D2, ?_, ?_⟩
  · rw [D2, D1]
    exact hpd
  · intro fuel2 pos r p1 hf
    exact ⟨(findSafeRandomRoom_spec g _ fuel2 pos r p1 hf).2.1,
           (findSafeRandomRoom_spec g _ fuel2 pos r p1 hf).2.2⟩

/-- C8 witness: the amended statement at the concrete reachable pre-landing
state. -/
theorem bat_transport_landing_witness :
    c8post.player_room = c8pre.transport_dest_room ∧
    c8post.current_action = WAction.go ∧
    c8post.hazards = c8pre.hazards ∧
    c8post.hazards.getD c8post.player_room WHazard.none ≠ WHazard.pitfall := by
  have hr : Reachable c8g 50 c8pre := by
    apply reachable_runEvents c8g 50 c8evs ((activateFace c8g 50 0).getD initialState) c8pre
    · exact Reachable.init 0 _ (by decide)
    · decide
  obtain ⟨W1, W2, W3, W4, W5⟩ := bat_transport_landing c8g 50 c8pre c8post hr
    (by decide) (by decide) (by decide) (by decide) (by decide) (by decide)
  exact ⟨W1, W2, W3, W4⟩

end WumpusFace
